import Mathlib

/-!
Verification of the varsig envelope codec (src/src/index.js, src/src/constants.js,
src/src/crypto/*.js) against its natural-language specification.

Bytes are modelled as `Nat` entries of a `List Nat` (every value written by the
code is < 256).  The `multiformats` varint routines used by the code
(`varint.encodingLength` / `varint.encodeTo` / `varint.decode`) are embedded as
`encodeVarint` / `varintRead`; a thrown `RangeError` ("Could not decode varint")
is modelled as `Option.none`.  Thrown JavaScript errors in the codec are
modelled by the `Except JsError` monad.
-/

namespace Varsig

/-- `VARSIG_PREFIX` from src/src/constants.js: `Uint8Array.of(0x34)`. -/
def VARSIG_PREFIX : List Nat := [0x34]

/-- `HASH_ALGO_SHA256` from src/src/constants.js (multicodec sha2-256 tag). -/
def HASH_ALGO_SHA256 : Nat := 0x12

/-- `ENCODING_INFO` from src/src/constants.js (single verbatim payload). -/
def ENCODING_INFO : Nat := 0x5f

/-- The `SIGNATURE_HEADER_TAGS` object from src/src/constants.js. -/
structure SignatureHeaderTags where
  ed25519 : Nat
  rsa : Nat
  bls : Nat
deriving DecidableEq

/-- `SIGNATURE_HEADER_TAGS = { ed25519: 0xed, rsa: 0x1205, bls: 0x1309 }`. -/
def SIGNATURE_HEADER_TAGS : SignatureHeaderTags :=
  { ed25519 := 0xed, rsa := 0x1205, bls := 0x1309 }

/-- `Object.entries(SIGNATURE_HEADER_TAGS)` in insertion order. -/
def signatureHeaderTagEntries : List (String × Nat) :=
  [("ed25519", SIGNATURE_HEADER_TAGS.ed25519),
   ("rsa", SIGNATURE_HEADER_TAGS.rsa),
   ("bls", SIGNATURE_HEADER_TAGS.bls)]

/-- LEB128 encoder loop of `varint.encodeTo` (multiformats vendored varint),
written with a structural fuel argument so that it evaluates by kernel
reduction; `encodeVarint` supplies `code` itself as fuel, which always
suffices because `code / 128 < code` for `code ≥ 128`.  The fuel-exhausted
branch is unreachable under that fuel. -/
def encodeVarintAux : Nat → Nat → List Nat
  | _, 0 => [0]
  | 0, code + 1 => [(code + 1) % 128]
  | fuel + 1, code + 1 =>
    if code + 1 < 128 then [code + 1]
    else ((code + 1) % 128 + 128) :: encodeVarintAux fuel ((code + 1) / 128)

/-- `encodeVarint` from src/src/index.js: allocates `varint.encodingLength(code)`
bytes and fills them with `varint.encodeTo(code, bytes, 0)`; the result is the
standard 7-bits-per-byte little-endian continuation-bit encoding of `code`. -/
def encodeVarint (code : Nat) : List Nat :=
  encodeVarintAux code code

/-- The `read` loop of the multiformats vendored varint decoder.  It throws
(`none`) when the remaining buffer is exhausted before a terminating byte
(high bit clear) is found, or when `shift` exceeds 49; otherwise it returns
the decoded value and the number of bytes consumed. -/
def varintRead : List Nat → Nat → Nat → Option (Nat × Nat)
  | [], _, _ => none
  | b :: rest, shift, res =>
    if 49 < shift then none
    else
      let res2 := res + b % 128 * 2 ^ shift
      if 128 ≤ b then
        match varintRead rest (shift + 7) res2 with
        | none => none
        | some (v, n) => some (v, n + 1)
      else
        some (res2, 1)

/-- Result record of `decodeVarintAt` (src/src/index.js): the decoded value,
the number of bytes the varint occupied, and the cursor after the field. -/
structure DecodedVarint where
  value : Nat
  length : Nat
  nextOffset : Nat
deriving DecidableEq

/-- `decodeVarintAt(buffer, offset)` from src/src/index.js:
`varint.decode(buffer.subarray(offset))`, with the thrown `RangeError`
modelled as `none`. -/
def decodeVarintAt (buffer : List Nat) (offset : Nat) : Option DecodedVarint :=
  match varintRead (buffer.drop offset) 0 0 with
  | none => none
  | some (v, len) => some { value := v, length := len, nextOffset := offset + len }

/-- One lowercase hexadecimal digit, `0`-`9` then `a`-`f`. -/
def hexDigit (n : Nat) : Char :=
  if n < 10 then Char.ofNat (48 + n) else Char.ofNat (87 + n)

/-- Two-digit lowercase hex rendering of one byte, as used by
`toString(bytes, 'hex')` from the `uint8arrays` package. -/
def byteToHexChars (b : Nat) : List Char :=
  [hexDigit (b / 16), hexDigit (b % 16)]

/-- `toString(bytes, 'hex')` from the `uint8arrays` package. -/
def toHexString (bytes : List Nat) : String :=
  String.mk (bytes.flatMap byteToHexChars)

/-- Digit loop of JavaScript `Number.prototype.toString(16)`, most significant
digit first, with a structural fuel argument (`n` itself always suffices as
fuel because `n / 16 < n` for `n ≥ 1`). -/
def natToHexCore : Nat → Nat → List Char
  | _, 0 => []
  | 0, _ + 1 => []
  | fuel + 1, n + 1 => natToHexCore fuel ((n + 1) / 16) ++ [hexDigit ((n + 1) % 16)]

/-- JavaScript `value.toString(16)`: minimal lowercase hex, `"0"` for zero. -/
def natToHex (n : Nat) : String :=
  if n = 0 then "0" else String.mk (natToHexCore n n)

/-- JavaScript `Uint8Array.prototype.slice(start, end)` on a byte list:
both indices clamp to the array bounds, and `end ≤ start` yields an empty
result. -/
def jsSlice (arr : List Nat) (s e : Nat) : List Nat :=
  (arr.take e).drop s

/-- JavaScript `TypedArray.prototype.set(src, offset)` in the in-bounds case
used by `create`: overwrite `src.length` bytes of `arr` starting at `offset`. -/
def uint8ArraySet (arr src : List Nat) (offset : Nat) : List Nat :=
  arr.take offset ++ src ++ arr.drop (offset + src.length)

/-- Errors thrown by the codec or by a crypto capability.
`malformedVarint` is the `RangeError` thrown by `varint.decode`;
`unknownSignatureHeader` is the `Unknown signature header code` error of
`inspectVarsig`; `undefinedHasNoProperties` models a failed
`cryptoAlgorithms[algorithm]` lookup inside `verify` (unreachable, since
`inspectVarsig` only returns registered names); `cryptoFailure` models an
exception thrown inside an algorithm capability (for example
`bls.Signature.fromHex`). -/
inductive JsError where
  | malformedVarint
  | unknownSignatureHeader (code : Nat)
  | undefinedHasNoProperties
  | cryptoFailure (msg : String)
deriving DecidableEq

deriving instance DecidableEq for Except

/-- The record returned by `inspectVarsig` (src/src/index.js).  The source
field named `prefix` is called `prefixHex` here because `prefix` is a reserved
word in Lean. -/
structure VarsigComponents where
  prefixHex : String
  signatureHeader : String
  hashAlgorithm : String
  signatureByteLength : String
  encodingInfo : String
  signature : List Nat
  algorithm : String
  totalLength : Nat
deriving DecidableEq

/-- `Object.entries(SIGNATURE_HEADER_TAGS).find(([algo, code]) => code === signatureHeaderCode)?.[0]`
from src/src/index.js: the name of the first registered entry carrying the
given tag. -/
def findHeaderMatch (code : Nat) : Option String :=
  (signatureHeaderTagEntries.find? (fun p => p.2 == code)).map Prod.fst

/-- `create(payload, cryptoImplementation, privateKey)` from src/src/index.js.
The two varint tags are the values of `cryptoImplementation.getSignatureHeader()`
and `cryptoImplementation.getHashAlgorithm()`, and `signature` stands for the
awaited result of `cryptoImplementation.sign(payload, privateKey)`; everything
after the `sign` call is deterministic byte assembly, reproduced here
instruction by instruction (zero-filled allocation followed by offset-advancing
`set` calls). -/
def create (signatureHeaderTag hashAlgorithmTag : Nat) (signature : List Nat) : List Nat :=
  let pfx := VARSIG_PREFIX
  let signatureHeaderBytes := encodeVarint signatureHeaderTag
  let hashAlgorithmBytes := encodeVarint hashAlgorithmTag
  let signatureLengthBytes := encodeVarint signature.length
  let encodingInfoBytes := encodeVarint ENCODING_INFO
  let totalLength :=
    pfx.length + signatureHeaderBytes.length + hashAlgorithmBytes.length +
      signatureLengthBytes.length + encodingInfoBytes.length + signature.length
  let varsig0 := List.replicate totalLength 0
  let offset0 := 0
  let varsig1 := uint8ArraySet varsig0 pfx offset0
  let offset1 := offset0 + pfx.length
  let varsig2 := uint8ArraySet varsig1 signatureHeaderBytes offset1
  let offset2 := offset1 + signatureHeaderBytes.length
  let varsig3 := uint8ArraySet varsig2 hashAlgorithmBytes offset2
  let offset3 := offset2 + hashAlgorithmBytes.length
  let varsig4 := uint8ArraySet varsig3 signatureLengthBytes offset3
  let offset4 := offset3 + signatureLengthBytes.length
  let varsig5 := uint8ArraySet varsig4 encodingInfoBytes offset4
  let offset5 := offset4 + encodingInfoBytes.length
  uint8ArraySet varsig5 signature offset5

/-- `inspectVarsig(varsig)` from src/src/index.js, step for step: slice the
prefix without validating it, decode the signature header varint, resolve it
against the registry (throwing on an unknown tag), decode the hash algorithm,
signature length and encoding info varints, then `slice` out the signature
bytes (`slice` clamps, it never throws). -/
def inspectVarsig (varsig : List Nat) : Except JsError VarsigComponents :=
  let prefixLength := VARSIG_PREFIX.length
  let pfx := jsSlice varsig 0 prefixLength
  match decodeVarintAt varsig prefixLength with
  | none => .error .malformedVarint
  | some d1 =>
    match findHeaderMatch d1.value with
    | none => .error (.unknownSignatureHeader d1.value)
    | some signatureHeaderMatched =>
      match decodeVarintAt varsig d1.nextOffset with
      | none => .error .malformedVarint
      | some d2 =>
        match decodeVarintAt varsig d2.nextOffset with
        | none => .error .malformedVarint
        | some d3 =>
          let signatureLengthBytes := jsSlice varsig d2.nextOffset (d2.nextOffset + d3.length)
          match decodeVarintAt varsig d3.nextOffset with
          | none => .error .malformedVarint
          | some d4 =>
            let signatureStart := d4.nextOffset
            let signatureEnd := signatureStart + d3.value
            let signatureBytes := jsSlice varsig signatureStart signatureEnd
            .ok { prefixHex := toHexString pfx
                , signatureHeader := natToHex d1.value
                , hashAlgorithm := natToHex d2.value
                , signatureByteLength := toHexString signatureLengthBytes
                , encodingInfo := natToHex d4.value
                , signature := signatureBytes
                , algorithm := signatureHeaderMatched
                , totalLength := varsig.length }

/-- The behavioural part of the `CryptoImplementation` interface (src/src/api.ts)
needed by `verify`: the `verify` capability (which, being JavaScript, may throw)
and the two tag getters. -/
structure CryptoImplementation where
  verify : List Nat → List Nat → List Nat → Except JsError Bool
  getSignatureHeader : Nat
  getHashAlgorithm : Nat

/-- `ed25519Implementation` (src/src/crypto/ed25519.js), parameterised by the
external `ED25519.verify(signature, payload, publicKey)` routine of
`@noble/ed25519`, which returns a boolean. -/
def ed25519Implementation (edVerify : List Nat → List Nat → List Nat → Bool) :
    CryptoImplementation :=
  { verify := fun payload signature publicKey => .ok (edVerify signature payload publicKey)
  , getSignatureHeader := SIGNATURE_HEADER_TAGS.ed25519
  , getHashAlgorithm := HASH_ALGO_SHA256 }

/-- `rsaImplementation` (src/src/crypto/rsa.js), parameterised by the external
`crypto.subtle.verify` routine, which resolves to a boolean. -/
def rsaImplementation (rsaVerify : List Nat → List Nat → List Nat → Bool) :
    CryptoImplementation :=
  { verify := fun payload signature publicKey => .ok (rsaVerify payload signature publicKey)
  , getSignatureHeader := SIGNATURE_HEADER_TAGS.rsa
  , getHashAlgorithm := HASH_ALGO_SHA256 }

/-- `blsImplementation` (src/src/crypto/bls.js), parameterised by the external
`bls.Signature.fromHex` parser (which throws — `.error` — on bytes that do not
encode a valid signature point) and the external `bls.verify` routine.  The
source first parses the signature bytes and only then verifies, so a parser
exception escapes `verify` uncaught. -/
def blsImplementation {Sig : Type} (fromHex : List Nat → Except JsError Sig)
    (blsVerify : Sig → List Nat → List Nat → Bool) : CryptoImplementation :=
  { verify := fun payload signature publicKey =>
      match fromHex signature with
      | .error e => .error e
      | .ok sig => .ok (blsVerify sig payload publicKey)
  , getSignatureHeader := SIGNATURE_HEADER_TAGS.bls
  , getHashAlgorithm := HASH_ALGO_SHA256 }

/-- The `cryptoAlgorithms` record (src/src/crypto/implementations.js) as a
name-indexed lookup, parameterised by the external crypto routines. -/
def cryptoAlgorithms {Sig : Type} (edVerify rsaVerify : List Nat → List Nat → List Nat → Bool)
    (fromHex : List Nat → Except JsError Sig) (blsVerify : Sig → List Nat → List Nat → Bool) :
    String → Option CryptoImplementation :=
  fun name =>
    if name = "ed25519" then some (ed25519Implementation edVerify)
    else if name = "rsa" then some (rsaImplementation rsaVerify)
    else if name = "bls" then some (blsImplementation fromHex blsVerify)
    else none

/-- `verify(payload, varsig, publicKey)` from src/src/index.js: inspect the
varsig (decode errors propagate), look the resolved algorithm name up in
`cryptoAlgorithms`, and dispatch to that implementation's `verify` capability. -/
def verify (algos : String → Option CryptoImplementation)
    (payload varsig publicKey : List Nat) : Except JsError Bool :=
  match inspectVarsig varsig with
  | .error e => .error e
  | .ok comps =>
    match algos comps.algorithm with
    | none => .error .undefinedHasNoProperties
    | some impl => impl.verify payload comps.signature publicKey

/-- Projection of a `VarsigComponents` record onto every field except the
reported prefix, used to state that two inspections agree outside the prefix. -/
def nonPrefixView (c : VarsigComponents) :
    String × String × String × String × List Nat × String × Nat :=
  (c.signatureHeader, c.hashAlgorithm, c.signatureByteLength, c.encodingInfo,
   c.signature, c.algorithm, c.totalLength)

/-! Helper lemmas about the varint codec. -/

/-- The fuel argument of `encodeVarintAux` is irrelevant as long as it is at
least the encoded value. -/
theorem encodeVarintAux_fuel : ∀ (fuel c : Nat), c ≤ fuel →
    encodeVarintAux fuel c = encodeVarintAux c c := by
  intro fuel
  induction fuel using Nat.strong_induction_on with
  | _ fuel ih =>
    intro c hc
    cases c with
    | zero => cases fuel <;> rfl
    | succ k =>
      cases fuel with
      | zero => omega
      | succ m =>
        show encodeVarintAux (m + 1) (k + 1) = encodeVarintAux (k + 1) (k + 1)
        simp only [encodeVarintAux]
        by_cases h : k + 1 < 128
        · simp [h]
        · simp only [if_neg h]
          congr 1
          have hq : (k + 1) / 128 < k + 1 := Nat.div_lt_self (Nat.succ_pos k) (by omega)
          rw [ih m (by omega) ((k + 1) / 128) (by omega),
            ih k (by omega) ((k + 1) / 128) (by omega)]

/-- `encodeVarint` satisfies the defining recursion of the LEB128 loop of
`varint.encodeTo`. -/
theorem encodeVarint_unfold (c : Nat) :
    encodeVarint c = if c < 128 then [c] else (c % 128 + 128) :: encodeVarint (c / 128) := by
  cases c with
  | zero => rfl
  | succ k =>
    show encodeVarintAux (k + 1) (k + 1) = _
    simp only [encodeVarintAux]
    by_cases h : k + 1 < 128
    · simp [h]
    · simp only [if_neg h]
      congr 1
      have hq : (k + 1) / 128 < k + 1 := Nat.div_lt_self (Nat.succ_pos k) (by omega)
      exact encodeVarintAux_fuel k ((k + 1) / 128) (by omega)

/-- The encoder always emits at least one byte. -/
theorem encodeVarint_length_pos (c : Nat) : 1 ≤ (encodeVarint c).length := by
  rw [encodeVarint_unfold]
  by_cases h : c < 128 <;> simp [h]

/-- A value below `128 ^ k` encodes into at most `k` bytes (for `k ≥ 1`). -/
theorem encodeVarint_length_le : ∀ (k c : Nat), 1 ≤ k → c < 128 ^ k →
    (encodeVarint c).length ≤ k := by
  intro k
  induction k with
  | zero => omega
  | succ n ih =>
    intro c _ hc
    rw [encodeVarint_unfold]
    by_cases h : c < 128
    · rw [if_pos h]
      simp
    · rw [if_neg h]
      simp only [List.length_cons]
      have hn : 1 ≤ n := by
        by_contra hn
        have : n = 0 := by omega
        subst this
        simp [pow_succ, pow_zero] at hc
        omega
      have : c / 128 < 128 ^ n := by
        rw [Nat.div_lt_iff_lt_mul (by omega : 0 < 128)]
        calc c < 128 ^ (n + 1) := hc
          _ = 128 ^ n * 128 := by rw [pow_succ]
      have := ih (c / 128) hn this
      omega

/-- Round trip of the multiformats varint: reading back an encoded value from
the front of a buffer yields the value and consumes exactly the encoded bytes,
as long as the decoder's shift guard is not reached. -/
theorem varintRead_encode (v : Nat) : ∀ (rest : List Nat) (shift res : Nat),
    shift + 7 * (encodeVarint v).length ≤ 56 →
    varintRead (encodeVarint v ++ rest) shift res
      = some (res + v * 2 ^ shift, (encodeVarint v).length) := by
  induction v using Nat.strong_induction_on with
  | _ v ih =>
    intro rest shift res hb
    rw [encodeVarint_unfold] at hb ⊢
    by_cases h : v < 128
    · rw [if_pos h] at hb ⊢
      simp only [List.length_cons, List.length_nil] at hb
      simp only [List.singleton_append, varintRead]
      rw [if_neg (by omega : ¬ 49 < shift), if_neg (by omega : ¬ 128 ≤ v)]
      simp [Nat.mod_eq_of_lt h]
    · rw [if_neg h] at hb ⊢
      simp only [List.length_cons] at hb
      simp only [List.cons_append, varintRead]
      rw [if_neg (by omega : ¬ 49 < shift), if_pos (by omega : 128 ≤ v % 128 + 128)]
      have hq : v / 128 < v := Nat.div_lt_self (by omega) (by omega)
      simp only [List.append_eq]
      rw [ih (v / 128) hq rest (shift + 7) _ (by omega)]
      have hmod : (v % 128 + 128) % 128 = v % 128 := by
        rw [Nat.add_mod_right]
        exact Nat.mod_eq_of_lt (Nat.mod_lt v (by omega))
      have hval : res + (v % 128 + 128) % 128 * 2 ^ shift + v / 128 * 2 ^ (shift + 7)
          = res + v * 2 ^ shift := by
        rw [hmod]
        have : v % 128 * 2 ^ shift + v / 128 * 2 ^ (shift + 7)
            = (v % 128 + 128 * (v / 128)) * 2 ^ shift := by
          rw [pow_add]
          ring
        rw [Nat.add_assoc, this, Nat.mod_add_div]
      rw [hmod] at hval
      simp [hval]

/-- Decoding at the end of a well-placed field: `decodeVarintAt` run at the
offset just past `front` on `front ++ encodeVarint v ++ rest` returns `v`,
its encoded width, and the advanced cursor. -/
theorem decodeVarintAt_append (front : List Nat) (v : Nat) (rest : List Nat)
    (hb : 7 * (encodeVarint v).length ≤ 56) :
    decodeVarintAt (front ++ (encodeVarint v ++ rest)) front.length
      = some ⟨v, (encodeVarint v).length, front.length + (encodeVarint v).length⟩ := by
  unfold decodeVarintAt
  rw [List.drop_left]
  rw [varintRead_encode v rest 0 0 (by omega)]
  simp

/-- The cursor returned by a successful `decodeVarintAt` is the starting
offset plus the number of bytes consumed. -/
theorem decodeVarintAt_nextOffset {buffer : List Nat} {i : Nat} {d : DecodedVarint}
    (h : decodeVarintAt buffer i = some d) : d.nextOffset = i + d.length := by
  unfold decodeVarintAt at h
  cases hv : varintRead (buffer.drop i) 0 0 with
  | none => rw [hv] at h; exact absurd h (by simp)
  | some p =>
    rw [hv] at h
    cases p
    injection h with h
    rw [← h]

/-! Helper lemmas about the byte assembly performed by `create`. -/

/-- One `set` call of `create`: writing `src` at the cursor of a partially
filled buffer extends the filled region and shrinks the zero tail. -/
theorem uint8ArraySet_build (done src : List Nat) (m : Nat) :
    uint8ArraySet (done ++ List.replicate m 0) src done.length
      = (done ++ src) ++ List.replicate (m - src.length) 0 := by
  unfold uint8ArraySet
  rw [List.take_left, List.drop_append, List.drop_replicate, List.append_assoc]

/-- The six `set` calls of `create` fill the zero-initialised buffer with the
exact concatenation of the six fields. -/
theorem create_build (E1 E2 E3 E4 S : List Nat) :
    uint8ArraySet
      (uint8ArraySet
        (uint8ArraySet
          (uint8ArraySet
            (uint8ArraySet
              (uint8ArraySet
                (List.replicate (1 + E1.length + E2.length + E3.length + E4.length + S.length) 0)
                [0x34] 0)
              E1 1)
            E2 (1 + E1.length))
          E3 (1 + E1.length + E2.length))
        E4 (1 + E1.length + E2.length + E3.length))
      S (1 + E1.length + E2.length + E3.length + E4.length)
    = [0x34] ++ E1 ++ E2 ++ E3 ++ E4 ++ S := by
  have h1 := uint8ArraySet_build []
    [0x34] (1 + E1.length + E2.length + E3.length + E4.length + S.length)
  simp only [List.nil_append, List.length_nil] at h1
  rw [h1]
  have e1 : 1 + E1.length + E2.length + E3.length + E4.length + S.length - [0x34].length
      = E1.length + (E2.length + E3.length + E4.length + S.length) := by
    simp only [List.length_singleton]
    omega
  rw [e1]
  have h2 := uint8ArraySet_build [0x34] E1
    (E1.length + (E2.length + E3.length + E4.length + S.length))
  simp only [List.length_singleton] at h2
  rw [h2, Nat.add_sub_cancel_left]
  have h3 := uint8ArraySet_build ([0x34] ++ E1) E2
    (E2.length + (E3.length + E4.length + S.length))
  have e3 : ([0x34] ++ E1).length = 1 + E1.length := by
    simp only [List.length_append, List.length_singleton]
  rw [e3] at h3
  have e3b : E2.length + (E3.length + E4.length + S.length)
      = E2.length + E3.length + E4.length + S.length := by omega
  rw [e3b] at h3
  have e3c : E2.length + E3.length + E4.length + S.length - E2.length
      = E3.length + E4.length + S.length := by omega
  rw [e3c] at h3
  rw [h3]
  have h4 := uint8ArraySet_build ([0x34] ++ E1 ++ E2) E3
    (E3.length + E4.length + S.length)
  have e4 : ([0x34] ++ E1 ++ E2).length = 1 + E1.length + E2.length := by
    simp only [List.length_append, List.length_singleton]
  rw [e4] at h4
  have e4c : E3.length + E4.length + S.length - E3.length = E4.length + S.length := by omega
  rw [e4c] at h4
  rw [h4]
  have h5 := uint8ArraySet_build ([0x34] ++ E1 ++ E2 ++ E3) E4
    (E4.length + S.length)
  have e5 : ([0x34] ++ E1 ++ E2 ++ E3).length = 1 + E1.length + E2.length + E3.length := by
    simp only [List.length_append, List.length_singleton]
  rw [e5] at h5
  have e5c : E4.length + S.length - E4.length = S.length := by omega
  rw [e5c] at h5
  rw [h5]
  have h6 := uint8ArraySet_build ([0x34] ++ E1 ++ E2 ++ E3 ++ E4) S S.length
  have e6 : ([0x34] ++ E1 ++ E2 ++ E3 ++ E4).length
      = 1 + E1.length + E2.length + E3.length + E4.length := by
    simp only [List.length_append, List.length_singleton]
  rw [e6] at h6
  rw [Nat.sub_self] at h6
  rw [h6]
  simp

/-- `create` produces exactly the concatenation
`prefix ‖ varint(signatureHeader) ‖ varint(hashAlgorithm) ‖ varint(len(sig)) ‖ varint(encodingInfo) ‖ sig`. -/
theorem create_eq_append (s h : Nat) (sig : List Nat) :
    create s h sig
      = [0x34] ++ encodeVarint s ++ encodeVarint h ++ encodeVarint sig.length ++
          encodeVarint ENCODING_INFO ++ sig := by
  have hshow : create s h sig
      = uint8ArraySet
          (uint8ArraySet
            (uint8ArraySet
              (uint8ArraySet
                (uint8ArraySet
                  (uint8ArraySet
                    (List.replicate
                      (1 + (encodeVarint s).length + (encodeVarint h).length +
                        (encodeVarint sig.length).length + (encodeVarint ENCODING_INFO).length +
                        sig.length) 0)
                    [0x34] 0)
                  (encodeVarint s) 1)
                (encodeVarint h) (1 + (encodeVarint s).length))
              (encodeVarint sig.length) (1 + (encodeVarint s).length + (encodeVarint h).length))
            (encodeVarint ENCODING_INFO)
            (1 + (encodeVarint s).length + (encodeVarint h).length +
              (encodeVarint sig.length).length))
          sig
          (1 + (encodeVarint s).length + (encodeVarint h).length +
            (encodeVarint sig.length).length + (encodeVarint ENCODING_INFO).length) := rfl
  rw [hshow, create_build]

/-- `slice` of a region that starts right after `front`: the result is the
first `L` bytes of the tail (clamped at the end of the buffer). -/
theorem jsSlice_append (front tail : List Nat) (L : Nat) :
    jsSlice (front ++ tail) front.length (front.length + L) = tail.take L := by
  unfold jsSlice
  rw [List.take_append, List.drop_left]

/-- Inspection of a byte string assembled from a prefix byte, four varint
fields and a signature tail: every field is recovered, and the signature field
is the first `L` bytes of the tail (so a tail shorter than the declared
length is returned clamped, without any error). -/
theorem inspectVarsig_concat (tag h L : Nat) (name : String) (sig : List Nat)
    (htag : 7 * (encodeVarint tag).length ≤ 56)
    (hh : 7 * (encodeVarint h).length ≤ 56)
    (hL : 7 * (encodeVarint L).length ≤ 56)
    (hfind : findHeaderMatch tag = some name) :
    inspectVarsig ([0x34] ++ encodeVarint tag ++ encodeVarint h ++ encodeVarint L ++
        encodeVarint ENCODING_INFO ++ sig)
      = .ok { prefixHex := "34"
            , signatureHeader := natToHex tag
            , hashAlgorithm := natToHex h
            , signatureByteLength := toHexString (encodeVarint L)
            , encodingInfo := natToHex ENCODING_INFO
            , signature := sig.take L
            , algorithm := name
            , totalLength := 1 + (encodeVarint tag).length + (encodeVarint h).length +
                (encodeVarint L).length + (encodeVarint ENCODING_INFO).length + sig.length } := by
  have hd1 : decodeVarintAt ([0x34] ++ encodeVarint tag ++ encodeVarint h ++ encodeVarint L ++
      encodeVarint ENCODING_INFO ++ sig) 1
      = some ⟨tag, (encodeVarint tag).length, 1 + (encodeVarint tag).length⟩ := by
    have base := decodeVarintAt_append [0x34] tag
      (encodeVarint h ++ (encodeVarint L ++ (encodeVarint ENCODING_INFO ++ sig))) htag
    rw [show ([0x34] : List Nat).length = 1 from rfl] at base
    rw [show [0x34] ++ (encodeVarint tag ++ (encodeVarint h ++ (encodeVarint L ++
        (encodeVarint ENCODING_INFO ++ sig))))
      = [0x34] ++ encodeVarint tag ++ encodeVarint h ++ encodeVarint L ++
        encodeVarint ENCODING_INFO ++ sig from by simp [List.append_assoc]] at base
    exact base
  have hd2 : decodeVarintAt ([0x34] ++ encodeVarint tag ++ encodeVarint h ++ encodeVarint L ++
      encodeVarint ENCODING_INFO ++ sig) (1 + (encodeVarint tag).length)
      = some ⟨h, (encodeVarint h).length,
          1 + (encodeVarint tag).length + (encodeVarint h).length⟩ := by
    have base := decodeVarintAt_append ([0x34] ++ encodeVarint tag) h
      (encodeVarint L ++ (encodeVarint ENCODING_INFO ++ sig)) hh
    rw [show (([0x34] : List Nat) ++ encodeVarint tag).length = 1 + (encodeVarint tag).length from by
      simp only [List.length_append, List.length_singleton]] at base
    rw [show ([0x34] ++ encodeVarint tag) ++ (encodeVarint h ++ (encodeVarint L ++
        (encodeVarint ENCODING_INFO ++ sig)))
      = [0x34] ++ encodeVarint tag ++ encodeVarint h ++ encodeVarint L ++
        encodeVarint ENCODING_INFO ++ sig from by simp [List.append_assoc]] at base
    exact base
  have hd3 : decodeVarintAt ([0x34] ++ encodeVarint tag ++ encodeVarint h ++ encodeVarint L ++
      encodeVarint ENCODING_INFO ++ sig)
      (1 + (encodeVarint tag).length + (encodeVarint h).length)
      = some ⟨L, (encodeVarint L).length,
          1 + (encodeVarint tag).length + (encodeVarint h).length + (encodeVarint L).length⟩ := by
    have base := decodeVarintAt_append ([0x34] ++ encodeVarint tag ++ encodeVarint h) L
      (encodeVarint ENCODING_INFO ++ sig) hL
    rw [show (([0x34] : List Nat) ++ encodeVarint tag ++ encodeVarint h).length
      = 1 + (encodeVarint tag).length + (encodeVarint h).length from by
      simp only [List.length_append, List.length_singleton]] at base
    rw [show ([0x34] ++ encodeVarint tag ++ encodeVarint h) ++ (encodeVarint L ++
        (encodeVarint ENCODING_INFO ++ sig))
      = [0x34] ++ encodeVarint tag ++ encodeVarint h ++ encodeVarint L ++
        encodeVarint ENCODING_INFO ++ sig from by simp [List.append_assoc]] at base
    exact base
  have hd4 : decodeVarintAt ([0x34] ++ encodeVarint tag ++ encodeVarint h ++ encodeVarint L ++
      encodeVarint ENCODING_INFO ++ sig)
      (1 + (encodeVarint tag).length + (encodeVarint h).length + (encodeVarint L).length)
      = some ⟨ENCODING_INFO, (encodeVarint ENCODING_INFO).length,
          1 + (encodeVarint tag).length + (encodeVarint h).length + (encodeVarint L).length +
            (encodeVarint ENCODING_INFO).length⟩ := by
    have base := decodeVarintAt_append
      ([0x34] ++ encodeVarint tag ++ encodeVarint h ++ encodeVarint L) ENCODING_INFO sig
      (by decide)
    rw [show (([0x34] : List Nat) ++ encodeVarint tag ++ encodeVarint h ++ encodeVarint L).length
      = 1 + (encodeVarint tag).length + (encodeVarint h).length + (encodeVarint L).length from by
      simp only [List.length_append, List.length_singleton]] at base
    rw [show ([0x34] ++ encodeVarint tag ++ encodeVarint h ++ encodeVarint L) ++
        (encodeVarint ENCODING_INFO ++ sig)
      = [0x34] ++ encodeVarint tag ++ encodeVarint h ++ encodeVarint L ++
        encodeVarint ENCODING_INFO ++ sig from by simp [List.append_assoc]] at base
    exact base
  have hs0 : jsSlice ([0x34] ++ encodeVarint tag ++ encodeVarint h ++ encodeVarint L ++
      encodeVarint ENCODING_INFO ++ sig) 0 1 = [0x34] := by
    simp [jsSlice, List.append_assoc]
  have hs3 : jsSlice ([0x34] ++ encodeVarint tag ++ encodeVarint h ++ encodeVarint L ++
      encodeVarint ENCODING_INFO ++ sig)
      (1 + (encodeVarint tag).length + (encodeVarint h).length)
      (1 + (encodeVarint tag).length + (encodeVarint h).length + (encodeVarint L).length)
      = encodeVarint L := by
    have base := jsSlice_append ([0x34] ++ encodeVarint tag ++ encodeVarint h)
      (encodeVarint L ++ (encodeVarint ENCODING_INFO ++ sig)) (encodeVarint L).length
    rw [List.take_left] at base
    rw [show (([0x34] : List Nat) ++ encodeVarint tag ++ encodeVarint h).length
      = 1 + (encodeVarint tag).length + (encodeVarint h).length from by
      simp only [List.length_append, List.length_singleton]] at base
    rw [show ([0x34] ++ encodeVarint tag ++ encodeVarint h) ++ (encodeVarint L ++
        (encodeVarint ENCODING_INFO ++ sig))
      = [0x34] ++ encodeVarint tag ++ encodeVarint h ++ encodeVarint L ++
        encodeVarint ENCODING_INFO ++ sig from by simp [List.append_assoc]] at base
    exact base
  have hs5 : jsSlice ([0x34] ++ encodeVarint tag ++ encodeVarint h ++ encodeVarint L ++
      encodeVarint ENCODING_INFO ++ sig)
      (1 + (encodeVarint tag).length + (encodeVarint h).length + (encodeVarint L).length +
        (encodeVarint ENCODING_INFO).length)
      (1 + (encodeVarint tag).length + (encodeVarint h).length + (encodeVarint L).length +
        (encodeVarint ENCODING_INFO).length + L)
      = sig.take L := by
    have base := jsSlice_append
      ([0x34] ++ encodeVarint tag ++ encodeVarint h ++ encodeVarint L ++
        encodeVarint ENCODING_INFO) sig L
    rw [show (([0x34] : List Nat) ++ encodeVarint tag ++ encodeVarint h ++ encodeVarint L ++
        encodeVarint ENCODING_INFO).length
      = 1 + (encodeVarint tag).length + (encodeVarint h).length + (encodeVarint L).length +
        (encodeVarint ENCODING_INFO).length from by
      simp only [List.length_append, List.length_singleton]] at base
    exact base
  simp only [inspectVarsig, VARSIG_PREFIX, List.length_singleton, hd1, hfind, hd2, hd3, hd4,
    hs0, hs3, hs5]
  simp only [VarsigComponents.mk.injEq, Except.ok.injEq]
  and_intros <;> first
  | rfl
  | trivial
  | decide
  | (simp [List.length_append]; omega)

/-- If every remaining byte carries the continuation bit, the varint read
loop exhausts the buffer and throws. -/
theorem varintRead_all_continuation (l : List Nat) : ∀ (shift res : Nat),
    (∀ b ∈ l, 128 ≤ b) → varintRead l shift res = none := by
  induction l with
  | nil => intro shift res _; rfl
  | cons b rest ih =>
    intro shift res hb
    simp only [varintRead]
    by_cases hs : 49 < shift
    · simp [hs]
    · rw [if_neg hs, if_pos (hb b (by simp))]
      rw [ih (shift + 7) (res + b % 128 * 2 ^ shift) (fun x hx => hb x (by simp [hx]))]

/-- `decodeVarintAt` throws whenever the offset is at or past the end of the
buffer, or the remaining bytes never clear the continuation bit. -/
theorem decodeVarintAt_malformed (buffer : List Nat) (offset : Nat)
    (h : buffer.length ≤ offset ∨ ∀ b ∈ buffer.drop offset, 128 ≤ b) :
    decodeVarintAt buffer offset = none := by
  unfold decodeVarintAt
  rcases h with h | h
  · rw [List.drop_eq_nil_of_le h]
    rfl
  · rw [varintRead_all_continuation (buffer.drop offset) 0 0 h]

/-- A signature length below `2 ^ 53` (every JavaScript `Uint8Array` length
is) encodes into at most 8 varint bytes, which keeps the decoder's shift
guard away. -/
theorem encodeVarint_sigbound (n : Nat) (h : n < 2 ^ 53) :
    7 * (encodeVarint n).length ≤ 56 := by
  have h8 : (encodeVarint n).length ≤ 8 := by
    refine encodeVarint_length_le 8 n (by omega) ?_
    have hpow : (2 : Nat) ^ 53 < 128 ^ 8 := by norm_num
    omega
  omega

/-- Claim C1: for every crypto implementation and every signature returned by
its `sign` capability, `create` returns the concatenation
`prefix(0x34) ++ varint(signatureHeader) ++ varint(hashAlgorithm) ++
varint(len(signature)) ++ varint(0x5f) ++ signature`, and the length of the
returned array is the sum `len(prefix) + (varint widths of the four tag
fields) + len(signature)`. -/
theorem C1_create_layout (s h : Nat) (sig : List Nat) :
    create s h sig
      = [0x34] ++ encodeVarint s ++ encodeVarint h ++ encodeVarint sig.length ++
          encodeVarint 0x5f ++ sig ∧
    (create s h sig).length
      = 1 + (encodeVarint s).length + (encodeVarint h).length +
          (encodeVarint sig.length).length + (encodeVarint 0x5f).length + sig.length := by
  constructor
  · exact create_eq_append s h sig
  · rw [create_eq_append]
    simp only [List.length_append, List.length_singleton, ENCODING_INFO]

/-- Claim C5: the varint encoding round-trips exactly through decoding at
offset 0 for 0, 127, 128, 16383, 16384 and the literal tags 0xed, 0x12, 0x5f,
0x1205 and 0x1309, multi-byte cases included: decoding yields the original
value together with the full encoded width. -/
theorem C5_varint_roundtrip :
    decodeVarintAt (encodeVarint 0) 0
      = some ⟨0, (encodeVarint 0).length, (encodeVarint 0).length⟩ ∧
    decodeVarintAt (encodeVarint 127) 0
      = some ⟨127, (encodeVarint 127).length, (encodeVarint 127).length⟩ ∧
    decodeVarintAt (encodeVarint 128) 0
      = some ⟨128, (encodeVarint 128).length, (encodeVarint 128).length⟩ ∧
    decodeVarintAt (encodeVarint 16383) 0
      = some ⟨16383, (encodeVarint 16383).length, (encodeVarint 16383).length⟩ ∧
    decodeVarintAt (encodeVarint 16384) 0
      = some ⟨16384, (encodeVarint 16384).length, (encodeVarint 16384).length⟩ ∧
    decodeVarintAt (encodeVarint 0xed) 0
      = some ⟨0xed, (encodeVarint 0xed).length, (encodeVarint 0xed).length⟩ ∧
    decodeVarintAt (encodeVarint 0x12) 0
      = some ⟨0x12, (encodeVarint 0x12).length, (encodeVarint 0x12).length⟩ ∧
    decodeVarintAt (encodeVarint 0x5f) 0
      = some ⟨0x5f, (encodeVarint 0x5f).length, (encodeVarint 0x5f).length⟩ ∧
    decodeVarintAt (encodeVarint 0x1205) 0
      = some ⟨0x1205, (encodeVarint 0x1205).length, (encodeVarint 0x1205).length⟩ ∧
    decodeVarintAt (encodeVarint 0x1309) 0
      = some ⟨0x1309, (encodeVarint 0x1309).length, (encodeVarint 0x1309).length⟩ := by
  decide

/-- Claim C6: varint decoding at an offset fails (the thrown `RangeError`,
modelled as `none`) whenever the offset is at or past the buffer end, or the
buffer ends before a byte without the continuation bit is found. -/
theorem C6_decode_fails_on_truncation (buffer : List Nat) (offset : Nat)
    (h : buffer.length ≤ offset ∨ ∀ b ∈ buffer.drop offset, 128 ≤ b) :
    decodeVarintAt buffer offset = none :=
  decodeVarintAt_malformed buffer offset h

/-- Witness for C6: a buffer of two continuation bytes has no terminating
byte, and decoding an empty buffer at offset 0 is already past the end. -/
theorem C6_decode_fails_on_truncation_witness :
    decodeVarintAt [0x80, 0x80] 0 = none ∧ decodeVarintAt [] 0 = none :=
  ⟨C6_decode_fails_on_truncation [0x80, 0x80] 0 (Or.inr (by decide)),
   C6_decode_fails_on_truncation [] 0 (Or.inl (by decide))⟩

/-- Claim C7 counterexample: the claim states that Ed25519's tag 0xed occupies
1 byte on the wire, but `varint.encodingLength(0xed)` is 2 (0xed ≥ 0x80, so a
continuation byte is needed): `encodeVarint 0xed = [0xed, 0x01]`. -/
theorem C7_counterexample : ¬ (encodeVarint 0xed).length = 1 := by
  decide

/-- Claim C7 (amended): the varint encodings of the built-in signature header
tags occupy 2 bytes each: 0xed encodes as `[0xed, 0x01]`, 0x1205 and 0x1309
also take 2 bytes. -/
theorem C7_tag_widths :
    (encodeVarint 0xed).length = 2 ∧ encodeVarint 0xed = [0xed, 0x01] ∧
    (encodeVarint 0x1205).length = 2 ∧ (encodeVarint 0x1309).length = 2 := by
  decide

/-- Claim C2: for every built-in algorithm entry (ed25519 = 0xed,
rsa = 0x1205, bls = 0x1309, each with hash algorithm 0x12) and every
signature the sign capability returns, inspecting the created varsig recovers
the signature header, the hash algorithm, the fixed encoding info 0x5f, and
the very signature bytes (hence the raw signature length — 64 for Ed25519,
256 for RSA-2048, 96 for BLS).  The bound `sig.length < 2 ^ 53` holds for
every JavaScript byte array. -/
theorem C2_inspect_create_roundtrip (name : String) (tag : Nat)
    (hmem : (name, tag) ∈ signatureHeaderTagEntries) (sig : List Nat)
    (hlen : sig.length < 2 ^ 53) :
    inspectVarsig (create tag HASH_ALGO_SHA256 sig)
      = .ok { prefixHex := "34"
            , signatureHeader := natToHex tag
            , hashAlgorithm := natToHex HASH_ALGO_SHA256
            , signatureByteLength := toHexString (encodeVarint sig.length)
            , encodingInfo := natToHex ENCODING_INFO
            , signature := sig
            , algorithm := name
            , totalLength := (create tag HASH_ALGO_SHA256 sig).length } := by
  have hsb := encodeVarint_sigbound sig.length hlen
  have hres : findHeaderMatch tag = some name ∧ 7 * (encodeVarint tag).length ≤ 56 := by
    simp only [signatureHeaderTagEntries, SIGNATURE_HEADER_TAGS, List.mem_cons,
      List.mem_singleton, List.not_mem_nil, or_false, Prod.mk.injEq] at hmem
    rcases hmem with ⟨rfl, rfl⟩ | ⟨rfl, rfl⟩ | ⟨rfl, rfl⟩ <;> exact ⟨by decide, by decide⟩
  obtain ⟨hfm, htagb⟩ := hres
  rw [create_eq_append]
  rw [inspectVarsig_concat tag HASH_ALGO_SHA256 sig.length name sig htagb (by decide) hsb hfm]
  simp only [Except.ok.injEq, VarsigComponents.mk.injEq]
  and_intros <;> first
  | rfl
  | trivial
  | (rw [List.take_length])
  | (simp only [List.length_append, List.length_singleton]
     try omega)

/-- Witness for C2 at the ed25519 entry with a concrete 64-byte signature. -/
theorem C2_inspect_create_roundtrip_witness :
    inspectVarsig (create 0xed 0x12 (List.replicate 64 7))
      = .ok { prefixHex := "34", signatureHeader := "ed", hashAlgorithm := "12"
            , signatureByteLength := "40", encodingInfo := "5f"
            , signature := List.replicate 64 7, algorithm := "ed25519"
            , totalLength := 70 } :=
  C2_inspect_create_roundtrip "ed25519" 0xed (by decide) (List.replicate 64 7) (by decide)

/-- Claim C3 counterexample: this buffer decodes its prefix and all four
varint fields (header 0xed, hash 0x12, declared signature length 0x40 = 64,
encoding info 0x5f) but then ends with 0 of the declared 64 signature bytes;
`inspectVarsig` does not fail — `slice` clamps, so it returns a result whose
signature field is empty. -/
theorem C3_counterexample :
    inspectVarsig [0x34, 0xed, 0x01, 0x12, 0x40, 0x5f]
      = .ok { prefixHex := "34", signatureHeader := "ed", hashAlgorithm := "12"
            , signatureByteLength := "40", encodingInfo := "5f", signature := []
            , algorithm := "ed25519", totalLength := 6 } := by
  decide

/-- A successful varint read consumes at least one byte and at most the
whole remaining buffer. -/
theorem varintRead_consumed (l : List Nat) : ∀ (shift res v n : Nat),
    varintRead l shift res = some (v, n) → 1 ≤ n ∧ n ≤ l.length := by
  induction l with
  | nil =>
    intro shift res v n h
    exact absurd h (by simp [varintRead])
  | cons b rest ih =>
    intro shift res v n h
    simp only [varintRead] at h
    by_cases hs : 49 < shift
    · rw [if_pos hs] at h
      exact absurd h (by simp)
    · rw [if_neg hs] at h
      by_cases hb : 128 ≤ b
      · rw [if_pos hb] at h
        cases hrec : varintRead rest (shift + 7) (res + b % 128 * 2 ^ shift) with
        | none =>
          rw [hrec] at h
          exact absurd h (by simp)
        | some p =>
          rw [hrec] at h
          cases p with
          | mk v2 n2 =>
            simp only [Option.some.injEq, Prod.mk.injEq] at h
            obtain ⟨-, rfl⟩ := h
            have := ih (shift + 7) (res + b % 128 * 2 ^ shift) v2 n2 hrec
            simp only [List.length_cons]
            omega
      · rw [if_neg hb] at h
        simp only [Option.some.injEq, Prod.mk.injEq] at h
        obtain ⟨-, rfl⟩ := h
        simp only [List.length_cons]
        omega

/-- The cursor returned by a successful `decodeVarintAt` never leaves the
buffer. -/
theorem decodeVarintAt_le_length {buffer : List Nat} {i : Nat} {d : DecodedVarint}
    (h : decodeVarintAt buffer i = some d) : d.nextOffset ≤ buffer.length := by
  unfold decodeVarintAt at h
  cases hv : varintRead (buffer.drop i) 0 0 with
  | none =>
    rw [hv] at h
    exact absurd h (by simp)
  | some p =>
    rw [hv] at h
    cases p with
    | mk v n =>
      injection h with h
      rw [← h]
      have hn := varintRead_consumed (buffer.drop i) 0 0 v n hv
      rw [List.length_drop] at hn
      simp only []
      omega

/-- Claim C3 (amended): for every buffer whose prefix and four varint fields
decode successfully (any prefix byte, any varint encodings, any encoding-info
value, a registered header) but which ends with fewer than the declared
`signatureLength` bytes after the cursor, `inspectVarsig` does not fail: the
`slice` clamps, so it returns a result whose signature field is exactly the
remaining bytes — strictly fewer than declared.  Truncation inside any of the
four varint fields (the signature header; or the hash algorithm, signature
length or encoding info after a registered header) raises the
`MalformedVarint` condition; no out-of-bounds read occurs in either case. -/
theorem C3_truncated_signature_clamps :
    (∀ (varsig : List Nat) (name : String) (d1 d2 d3 d4 : DecodedVarint),
        decodeVarintAt varsig VARSIG_PREFIX.length = some d1 →
        findHeaderMatch d1.value = some name →
        decodeVarintAt varsig d1.nextOffset = some d2 →
        decodeVarintAt varsig d2.nextOffset = some d3 →
        decodeVarintAt varsig d3.nextOffset = some d4 →
        varsig.length < d4.nextOffset + d3.value →
        inspectVarsig varsig
          = .ok { prefixHex := toHexString (jsSlice varsig 0 VARSIG_PREFIX.length)
                , signatureHeader := natToHex d1.value
                , hashAlgorithm := natToHex d2.value
                , signatureByteLength :=
                    toHexString (jsSlice varsig d2.nextOffset (d2.nextOffset + d3.length))
                , encodingInfo := natToHex d4.value
                , signature := varsig.drop d4.nextOffset
                , algorithm := name
                , totalLength := varsig.length } ∧
          (varsig.drop d4.nextOffset).length < d3.value) ∧
    (∀ (varsig : List Nat),
        decodeVarintAt varsig VARSIG_PREFIX.length = none →
        inspectVarsig varsig = .error .malformedVarint) ∧
    (∀ (varsig : List Nat) (name : String) (d1 : DecodedVarint),
        decodeVarintAt varsig VARSIG_PREFIX.length = some d1 →
        findHeaderMatch d1.value = some name →
        decodeVarintAt varsig d1.nextOffset = none →
        inspectVarsig varsig = .error .malformedVarint) ∧
    (∀ (varsig : List Nat) (name : String) (d1 d2 : DecodedVarint),
        decodeVarintAt varsig VARSIG_PREFIX.length = some d1 →
        findHeaderMatch d1.value = some name →
        decodeVarintAt varsig d1.nextOffset = some d2 →
        decodeVarintAt varsig d2.nextOffset = none →
        inspectVarsig varsig = .error .malformedVarint) ∧
    (∀ (varsig : List Nat) (name : String) (d1 d2 d3 : DecodedVarint),
        decodeVarintAt varsig VARSIG_PREFIX.length = some d1 →
        findHeaderMatch d1.value = some name →
        decodeVarintAt varsig d1.nextOffset = some d2 →
        decodeVarintAt varsig d2.nextOffset = some d3 →
        decodeVarintAt varsig d3.nextOffset = none →
        inspectVarsig varsig = .error .malformedVarint) := by
  refine ⟨?_, ?_, ?_, ?_, ?_⟩
  · intro varsig name d1 d2 d3 d4 h1 hfm h2 h3 h4 hshort
    have hle := decodeVarintAt_le_length h4
    constructor
    · simp only [inspectVarsig, h1, hfm, h2, h3, h4]
      have he : varsig.take (d4.nextOffset + d3.value) = varsig :=
        List.take_of_length_le (Nat.le_of_lt hshort)
      simp only [jsSlice, he]
    · rw [List.length_drop]
      omega
  · intro varsig h1
    simp only [inspectVarsig, h1]
  · intro varsig name d1 h1 hfm h2
    simp only [inspectVarsig, h1, hfm, h2]
  · intro varsig name d1 d2 h1 hfm h2 h3
    simp only [inspectVarsig, h1, hfm, h2, h3]
  · intro varsig name d1 d2 d3 h1 hfm h2 h3 h4
    simp only [inspectVarsig, h1, hfm, h2, h3, h4]

/-- Witness for C3 (amended): the truncated buffer of the counterexample
(0 of 64 declared signature bytes remain, inspection succeeds with an empty
signature), and buffers cut inside each of the four varint fields, which all
raise `MalformedVarint`. -/
theorem C3_truncated_signature_clamps_witness :
    (inspectVarsig [0x34, 0xed, 0x01, 0x12, 0x40, 0x5f]
      = .ok { prefixHex := "34", signatureHeader := "ed", hashAlgorithm := "12"
            , signatureByteLength := "40", encodingInfo := "5f", signature := ([] : List Nat)
            , algorithm := "ed25519", totalLength := 6 } ∧
      ([] : List Nat).length < 64) ∧
    inspectVarsig [0x34, 0x80] = .error .malformedVarint ∧
    inspectVarsig [0x34, 0xed, 0x01, 0x80] = .error .malformedVarint ∧
    inspectVarsig [0x34, 0xed, 0x01, 0x12, 0x80] = .error .malformedVarint ∧
    inspectVarsig [0x34, 0xed, 0x01, 0x12, 0x40] = .error .malformedVarint := by
  refine ⟨?_, ?_, ?_, ?_, ?_⟩
  · exact C3_truncated_signature_clamps.1 [0x34, 0xed, 0x01, 0x12, 0x40, 0x5f] "ed25519"
      ⟨0xed, 2, 3⟩ ⟨0x12, 1, 4⟩ ⟨64, 1, 5⟩ ⟨0x5f, 1, 6⟩
      (by decide) (by decide) (by decide) (by decide) (by decide) (by decide)
  · exact C3_truncated_signature_clamps.2.1 [0x34, 0x80] (by decide)
  · exact C3_truncated_signature_clamps.2.2.1 [0x34, 0xed, 0x01, 0x80] "ed25519"
      ⟨0xed, 2, 3⟩ (by decide) (by decide) (by decide)
  · exact C3_truncated_signature_clamps.2.2.2.1 [0x34, 0xed, 0x01, 0x12, 0x80] "ed25519"
      ⟨0xed, 2, 3⟩ ⟨0x12, 1, 4⟩ (by decide) (by decide) (by decide) (by decide)
  · exact C3_truncated_signature_clamps.2.2.2.2 [0x34, 0xed, 0x01, 0x12, 0x40] "ed25519"
      ⟨0xed, 2, 3⟩ ⟨0x12, 1, 4⟩ ⟨64, 1, 5⟩
      (by decide) (by decide) (by decide) (by decide) (by decide)

/-- Claim C4: when the decoded signature header is none of the registered
tags (0xed, 0x1205, 0x1309), `inspectVarsig` throws the unknown-algorithm
error carrying that code (it never falls back to a default algorithm); and
whenever inspection succeeds, the returned `algorithm` field is the name
found by the registry's first-match lookup on the decoded header. -/
theorem C4_unknown_algorithm (varsig : List Nat) :
    (∀ (d : DecodedVarint),
        decodeVarintAt varsig VARSIG_PREFIX.length = some d →
        d.value ≠ 0xed → d.value ≠ 0x1205 → d.value ≠ 0x1309 →
        inspectVarsig varsig = .error (.unknownSignatureHeader d.value)) ∧
    (∀ (comps : VarsigComponents),
        inspectVarsig varsig = .ok comps →
        ∃ d, decodeVarintAt varsig VARSIG_PREFIX.length = some d ∧
          findHeaderMatch d.value = some comps.algorithm) := by
  constructor
  · intro d hd h1 h2 h3
    have hfm : findHeaderMatch d.value = none := by
      have e1 : ((0xed : Nat) == d.value) = false := beq_eq_false_iff_ne.mpr (Ne.symm h1)
      have e2 : ((0x1205 : Nat) == d.value) = false := beq_eq_false_iff_ne.mpr (Ne.symm h2)
      have e3 : ((0x1309 : Nat) == d.value) = false := beq_eq_false_iff_ne.mpr (Ne.symm h3)
      simp [findHeaderMatch, signatureHeaderTagEntries, SIGNATURE_HEADER_TAGS,
        List.find?, e1, e2, e3]
    simp only [inspectVarsig, hd, hfm]
  · intro comps hok
    simp only [inspectVarsig] at hok
    split at hok
    · exact absurd hok (by simp)
    · rename_i d1 h1
      split at hok
      · exact absurd hok (by simp)
      · rename_i nm h2
        split at hok
        · exact absurd hok (by simp)
        · rename_i d2 h3
          split at hok
          · exact absurd hok (by simp)
          · rename_i d3 h4
            split at hok
            · exact absurd hok (by simp)
            · rename_i d4 h5
              simp only [Except.ok.injEq] at hok
              subst hok
              exact ⟨d1, h1, by rw [h2]⟩

/-- Witness for C4: an unregistered header code 0x01 throws, and the resolved
algorithm of a well-formed ed25519 envelope is the first-match lookup. -/
theorem C4_unknown_algorithm_witness :
    inspectVarsig [0x34, 0x01] = .error (.unknownSignatureHeader 1) ∧
    (∃ d, decodeVarintAt [0x34, 0xed, 0x01, 0x12, 0x00, 0x5f] VARSIG_PREFIX.length = some d ∧
      findHeaderMatch d.value = some "ed25519") := by
  constructor
  · exact (C4_unknown_algorithm [0x34, 0x01]).1 ⟨1, 1, 2⟩ (by decide)
      (by decide) (by decide) (by decide)
  · exact (C4_unknown_algorithm [0x34, 0xed, 0x01, 0x12, 0x00, 0x5f]).2
      { prefixHex := "34", signatureHeader := "ed", hashAlgorithm := "12"
      , signatureByteLength := "00", encodingInfo := "5f", signature := []
      , algorithm := "ed25519", totalLength := 6 } (by decide)

/-- Claim C8: for every 64-byte signature returned by the Ed25519 sign
capability, inspecting the varsig created with the ed25519 implementation
reports prefix "34", signature header "ed", hash algorithm "12", encoding
info "5f", a signature field of length 64 (the signature itself), and total
length 70. -/
theorem C8_ed25519_envelope (edVerify : List Nat → List Nat → List Nat → Bool)
    (sig : List Nat) (hlen : sig.length = 64) :
    inspectVarsig (create ((ed25519Implementation edVerify).getSignatureHeader)
        ((ed25519Implementation edVerify).getHashAlgorithm) sig)
      = .ok { prefixHex := "34", signatureHeader := "ed", hashAlgorithm := "12"
            , signatureByteLength := "40", encodingInfo := "5f", signature := sig
            , algorithm := "ed25519", totalLength := 70 } := by
  rw [show (ed25519Implementation edVerify).getSignatureHeader = 0xed from rfl,
    show (ed25519Implementation edVerify).getHashAlgorithm = 0x12 from rfl]
  rw [create_eq_append, hlen]
  rw [inspectVarsig_concat 0xed 0x12 64 "ed25519" sig (by decide) (by decide) (by decide)
    (by decide)]
  simp only [Except.ok.injEq, VarsigComponents.mk.injEq]
  and_intros <;> first
  | rfl
  | trivial
  | (rw [← hlen, List.take_length])
  | (rw [show (1 : Nat) + (encodeVarint 0xed).length + (encodeVarint 0x12).length +
        (encodeVarint 64).length + (encodeVarint ENCODING_INFO).length = 6 from by decide, hlen])

/-- Witness for C8 with a concrete 64-byte signature. -/
theorem C8_ed25519_envelope_witness :
    inspectVarsig (create ((ed25519Implementation fun _ _ _ => true).getSignatureHeader)
        ((ed25519Implementation fun _ _ _ => true).getHashAlgorithm) (List.replicate 64 7))
      = .ok { prefixHex := "34", signatureHeader := "ed", hashAlgorithm := "12"
            , signatureByteLength := "40", encodingInfo := "5f"
            , signature := List.replicate 64 7, algorithm := "ed25519"
            , totalLength := 70 } :=
  C8_ed25519_envelope (fun _ _ _ => true) (List.replicate 64 7) (by decide)

/-- Claim C9 (the code contradicts its own interface contract here): for a
structurally valid bls envelope, whenever the external `bls.Signature.fromHex`
parser rejects the embedded signature bytes, the repository's
`blsImplementation.verify` does not catch the exception and `verify`
propagates it to the caller instead of returning `false`. -/
theorem C9_bls_verify_propagates_parser_error {Sig : Type}
    (edVerify rsaVerify : List Nat → List Nat → List Nat → Bool)
    (fromHex : List Nat → Except JsError Sig) (blsVerify : Sig → List Nat → List Nat → Bool)
    (payload publicKey sig : List Nat) (e : JsError)
    (hlen : sig.length < 2 ^ 53) (hfh : fromHex sig = .error e) :
    verify (cryptoAlgorithms edVerify rsaVerify fromHex blsVerify) payload
        (create SIGNATURE_HEADER_TAGS.bls HASH_ALGO_SHA256 sig) publicKey
      = .error e := by
  have hsb := encodeVarint_sigbound sig.length hlen
  have halgos : cryptoAlgorithms edVerify rsaVerify fromHex blsVerify "bls"
      = some (blsImplementation fromHex blsVerify) := by
    unfold cryptoAlgorithms
    rw [if_neg (by decide), if_neg (by decide), if_pos rfl]
  unfold verify
  rw [show SIGNATURE_HEADER_TAGS.bls = 0x1309 from rfl, create_eq_append,
    inspectVarsig_concat 0x1309 HASH_ALGO_SHA256 sig.length "bls" sig (by decide) (by decide)
      hsb (by decide)]
  simp only [halgos, blsImplementation, List.take_length, hfh]

/-- Witness for C9: with a parser that rejects the 96 zero bytes (as the
BLS12-381 compressed-point parser does), `verify` raises that error. -/
theorem C9_bls_verify_propagates_parser_error_witness :
    verify (cryptoAlgorithms (fun _ _ _ => true) (fun _ _ _ => true)
        (fun _ => (.error (.cryptoFailure "invalid point") : Except JsError Unit))
        (fun _ _ _ => true)) [] (create SIGNATURE_HEADER_TAGS.bls HASH_ALGO_SHA256
        (List.replicate 96 0)) []
      = .error (.cryptoFailure "invalid point") :=
  C9_bls_verify_propagates_parser_error (fun _ _ _ => true) (fun _ _ _ => true)
    (fun _ => (.error (.cryptoFailure "invalid point") : Except JsError Unit))
    (fun _ _ _ => true) [] [] (List.replicate 96 0) (.cryptoFailure "invalid point")
    (by decide) rfl

/-- Dropping at least one element is determined by the tail after the first
element. -/
theorem drop_of_drop_one {v1 v2 : List Nat} (hdrop : v1.drop 1 = v2.drop 1) :
    ∀ (i : Nat), 1 ≤ i → v1.drop i = v2.drop i := by
  intro i hi
  obtain ⟨k, rfl⟩ : ∃ k, i = 1 + k := ⟨i - 1, by omega⟩
  rw [← List.drop_drop, hdrop, List.drop_drop]

/-- `decodeVarintAt` at an offset past the first byte only reads the tail. -/
theorem decodeVarintAt_congr_tail {v1 v2 : List Nat} (hdrop : v1.drop 1 = v2.drop 1)
    (i : Nat) (hi : 1 ≤ i) : decodeVarintAt v1 i = decodeVarintAt v2 i := by
  unfold decodeVarintAt
  rw [drop_of_drop_one hdrop i hi]

/-- A `slice` that starts past the first byte only reads the tail. -/
theorem jsSlice_congr_tail {v1 v2 : List Nat} (hdrop : v1.drop 1 = v2.drop 1)
    (s e : Nat) (hs : 1 ≤ s) : jsSlice v1 s e = jsSlice v2 s e := by
  unfold jsSlice
  rw [List.drop_take, List.drop_take, drop_of_drop_one hdrop s hs]

/-- Claim C10: neither `inspectVarsig` nor `verify` ever compares the leading
prefix byte against 0x34.  For two equal-length buffers that agree after
their first byte, inspection yields results that agree on every reported
field except the prefix (in particular no prefix-validation error exists in
the codec: `JsError` has no such case), and `verify` returns the same
outcome on both buffers for every algorithm table. -/
theorem C10_prefix_never_validated (v1 v2 : List Nat) (hlen : v1.length = v2.length)
    (hdrop : v1.drop 1 = v2.drop 1) :
    Except.map nonPrefixView (inspectVarsig v1) = Except.map nonPrefixView (inspectVarsig v2) ∧
    ∀ (algos : String → Option CryptoImplementation) (payload publicKey : List Nat),
      verify algos payload v1 publicKey = verify algos payload v2 publicKey := by
  have hvp : VARSIG_PREFIX.length = 1 := rfl
  have hd : ∀ i, 1 ≤ i → decodeVarintAt v1 i = decodeVarintAt v2 i :=
    fun i hi => decodeVarintAt_congr_tail hdrop i hi
  have hmap : Except.map nonPrefixView (inspectVarsig v1)
      = Except.map nonPrefixView (inspectVarsig v2) := by
    simp only [inspectVarsig]
    rw [hd VARSIG_PREFIX.length (by omega)]
    cases h1 : decodeVarintAt v2 VARSIG_PREFIX.length with
    | none => rfl
    | some d1 =>
      have hn1 : 1 ≤ d1.nextOffset := by
        have := decodeVarintAt_nextOffset h1
        omega
      simp only []
      cases h2 : findHeaderMatch d1.value with
      | none => rfl
      | some nm =>
        simp only []
        rw [hd d1.nextOffset hn1]
        cases h3 : decodeVarintAt v2 d1.nextOffset with
        | none => rfl
        | some d2 =>
          have hn2 : 1 ≤ d2.nextOffset := by
            have := decodeVarintAt_nextOffset h3
            omega
          simp only []
          rw [hd d2.nextOffset hn2]
          cases h4 : decodeVarintAt v2 d2.nextOffset with
          | none => rfl
          | some d3 =>
            simp only []
            have hn3 : 1 ≤ d3.nextOffset := by
              have := decodeVarintAt_nextOffset h4
              omega
            rw [hd d3.nextOffset hn3]
            cases h5 : decodeVarintAt v2 d3.nextOffset with
            | none => rfl
            | some d4 =>
              have hn4 : 1 ≤ d4.nextOffset := by
                have := decodeVarintAt_nextOffset h5
                omega
              simp only []
              rw [jsSlice_congr_tail hdrop d2.nextOffset (d2.nextOffset + d3.length) hn2,
                jsSlice_congr_tail hdrop d4.nextOffset (d4.nextOffset + d3.value) hn4]
              simp [Except.map, nonPrefixView, hlen]
  refine ⟨hmap, ?_⟩
  intro algos payload publicKey
  unfold verify
  cases hv1 : inspectVarsig v1 with
  | error e =>
    rw [hv1] at hmap
    cases hv2 : inspectVarsig v2 with
    | error e2 =>
      rw [hv2] at hmap
      simp only [Except.map] at hmap
      injection hmap with hmap
      rw [hmap]
    | ok c2 =>
      rw [hv2] at hmap
      simp [Except.map] at hmap
  | ok c1 =>
    cases hv2 : inspectVarsig v2 with
    | error e2 =>
      rw [hv1, hv2] at hmap
      simp [Except.map] at hmap
    | ok c2 =>
      rw [hv1, hv2] at hmap
      simp only [Except.map, Except.ok.injEq, nonPrefixView, Prod.mk.injEq] at hmap
      obtain ⟨_, _, _, _, hsig, halg, _⟩ := hmap
      simp only []
      rw [hsig, halg]

/-- Witness for C10: two well-formed buffers differing only in the first
byte (0x34 against 0x00). -/
theorem C10_prefix_never_validated_witness :
    (Except.map nonPrefixView (inspectVarsig [0x34, 0xed, 0x01, 0x12, 0x00, 0x5f])
      = Except.map nonPrefixView (inspectVarsig [0x00, 0xed, 0x01, 0x12, 0x00, 0x5f])) ∧
    ∀ (algos : String → Option CryptoImplementation) (payload publicKey : List Nat),
      verify algos payload [0x34, 0xed, 0x01, 0x12, 0x00, 0x5f] publicKey
        = verify algos payload [0x00, 0xed, 0x01, 0x12, 0x00, 0x5f] publicKey :=
  C10_prefix_never_validated [0x34, 0xed, 0x01, 0x12, 0x00, 0x5f]
    [0x00, 0xed, 0x01, 0x12, 0x00, 0x5f] (by decide) (by decide)

end Varsig
